import Mathlib

/-!
# general_Inter_p_lib: the shared-memory single-slot channel and the Image payload

A shallow embedding of `src/shared_memory.h`, `src/shared_memory.cpp` and `src/image.h`.

* The operating system's named shared-memory objects are an explicit state `Host T`:
  a table from names to segments, the contents of every segment, a counter that
  hands out fresh segments, and the sizes the system is able to map.
* A constructor that throws (`truncate` refusing a length above `2^63 - 1`, a mapping
  the system refuses) is `none`.
* A `SharedMemory<T>` object is a handle: its name, the segment it has mapped and the
  pointer `shared_data_` (`none` is `nullptr`).
* Every member function is a function on `Host T`.  The body of `write` and of `read`
  between taking the `scoped_lock` and releasing it runs under the interprocess mutex,
  so each of them is one transition of the host state; the only place where `read`
  gives the mutex up is `cond_var.wait`, and there the moves of the other parties are
  an explicit argument.
* `std::size_t` is `Nat` with an explicit `% 2 ^ 64` where the source does arithmetic.
-/

namespace InterP

/-! ## Definitions: shared memory -/

/-- Status of a write operation, `SharedMemory<T>::WriteStatus`. -/
inductive WriteStatus where
  | Success
  | Failure
  deriving DecidableEq, Repr

/-- The control block `SharedMemory<T>::SharedData`: the slot `data` and the flag
`new_data`.  The members `mutex` and `cond_var` carry no value of their own; their
effect is the atomicity of the transitions below. -/
structure SharedData (T : Type) where
  data : T
  new_data : Bool
  deriving DecidableEq, Repr

/-- The constructor `SharedData() : new_data(false) {}`.  The member `data` is not in the
initialiser list, so it is default-initialised: for the class payloads (`Image`,
`std::vector`) that is the default constructor's value, written `default` here; for the
scalar payloads the value is indeterminate and `default` stands for it. -/
def SharedData.init {T : Type} [Inhabited T] : SharedData T :=
  { data := default, new_data := false }

/-- One shared-memory segment: the size set by `truncate` and the `SharedData` object
living at the start of the mapping (`none`: no live object there, either never
constructed or already destructed). -/
structure Segment (T : Type) where
  size : Nat
  block : Option (SharedData T)

/-- The state of the operating system as far as the channel sees it. `names` is the
table of named shared-memory objects, `mem` the contents of every segment (a segment
stays mapped after its name is removed), `next` the first segment never handed out.
`grants n` says whether the operating system is able to give an object `n` bytes and
map it; what it refuses (no address space, no memory, a length of zero) differs from
host to host, so it is a parameter of the host. -/
structure Host (T : Type) where
  names : String → Option Nat
  mem : Nat → Segment T
  next : Nat
  grants : Nat → Bool

/-- A host on which no shared-memory object exists and which grants every size. -/
def Host.empty {T : Type} : Host T :=
  { names := fun _ => none, mem := fun _ => { size := 0, block := none }, next := 0,
    grants := fun _ => true }

/-- The control block at the start of segment `p`, if one is alive. -/
def Host.block {T : Type} (k : Host T) (p : Nat) : Option (SharedData T) :=
  (k.mem p).block

/-- Store a control block at the start of segment `p`. -/
def Host.store {T : Type} (k : Host T) (p : Nat) (b : Option (SharedData T)) : Host T :=
  { k with mem := Function.update k.mem p { size := (k.mem p).size, block := b } }

/-- The `shared_memory_object` constructor with `open_or_create`: the segment the name
denotes when there is one, else a new, empty segment registered under the name. The
result says which segment it is and whether this call created it. -/
def open_or_create {T : Type} (name : String) (k : Host T) : Nat × Bool × Host T :=
  match k.names name with
  | some id => (id, false, k)
  | none =>
    (k.next, true,
      { k with
        names := Function.update k.names name (some k.next)
        mem := Function.update k.mem k.next { size := 0, block := none }
        next := k.next + 1 })

/-- The call `shm_.truncate(n)`. The source passes a `std::size_t`; Boost takes the
length as the signed `offset_t` and refuses a length above the largest `off_t`,
`2^63 - 1`: the call then throws `interprocess_exception`, which is `none` here. A
length it accepts becomes the size of the segment, whose contents are kept. -/
def truncate {T : Type} (id n : Nat) (k : Host T) : Option (Host T) :=
  if n < 2 ^ 63 then
    some { k with mem := Function.update k.mem id { size := n, block := (k.mem id).block } }
  else none

/-- The constructor `mapped_region(shm_, read_write)`: the whole object is mapped and its
address is the result. When the operating system does not grant the size of the
object the constructor throws `interprocess_exception`, which is `none` here; a
refusal to give the object that size in the first place is counted here as well. -/
def mapped_region {T : Type} (id : Nat) (k : Host T) : Option Nat :=
  if k.grants (k.mem id).size then some id else none

/-- The call `shared_memory_object::remove(name)`: the name is unlinked, the memory of
the segment stays with whoever has it mapped. -/
def remove {T : Type} (name : String) (k : Host T) : Host T :=
  { k with names := Function.update k.names name none }

/-- The two sizes the constructor takes from the compiler, `sizeof(SharedData)` and
`sizeof(T)`. -/
structure Layout where
  sizeofSharedData : Nat
  sizeofT : Nat

/-- The argument of `truncate` in the constructor,
`sizeof(SharedData) + data_size * sizeof(T)` in `std::size_t` arithmetic. -/
def segmentSize (L : Layout) (data_size : Nat) : Nat :=
  (L.sizeofSharedData + (data_size * L.sizeofT) % 2 ^ 64) % 2 ^ 64

/-- The data members of a `SharedMemory<T>` object: `name_`, the mapped segment
(`shm_` and `region_`) and the pointer `shared_data_`. -/
structure SharedMemory where
  name_ : String
  region_ : Nat
  shared_data_ : Option Nat
  deriving DecidableEq, Repr

namespace SharedMemory

/-- The constructor `SharedMemory(name, data_size)`: open or create the object, truncate
it, map it, and placement-construct a `SharedData` at the mapped address. The
placement `new` is unconditional. `none` is a constructor that throws, from `truncate`
or from the mapping; no handle exists then and the host is not followed further. -/
def construct {T : Type} [Inhabited T] (L : Layout) (name : String) (data_size : Nat)
    (k : Host T) : Option (SharedMemory × Host T) :=
  let r := open_or_create name k
  match truncate r.1 (segmentSize L data_size) r.2.2 with
  | none => none
  | some k2 =>
    match mapped_region r.1 k2 with
    | none => none
    | some addr =>
      some ({ name_ := name, region_ := r.1, shared_data_ := some addr },
        k2.store addr (some SharedData.init))

/-- The destructor `~SharedMemory()`: when `shared_data_` is not null, destruct the
control block and remove the named object; when it is null, do nothing. Destructing
a block that is already dead is undefined in the source; here it stays dead and the
name is removed all the same. -/
def destruct {T : Type} (h : SharedMemory) (k : Host T) : Host T :=
  match h.shared_data_ with
  | some p => remove h.name_ (k.store p none)
  | none => k

/-- The member `setSharedDataNullptr()`. -/
def setSharedDataNullptr (h : SharedMemory) : SharedMemory :=
  { h with shared_data_ := none }

/-- The member `write(data)`. `none` is undefined behaviour: the pointer is not null
but no control block is alive behind it, so there is no mutex to lock. -/
def write {T : Type} (h : SharedMemory) (data : T) (k : Host T) :
    Option (WriteStatus × Host T) :=
  match h.shared_data_ with
  | none => some (WriteStatus.Failure, k)
  | some p =>
    match k.block p with
    | none => none
    | some _ =>
      match h.shared_data_ with
      | some q =>
        some (WriteStatus.Success, k.store q (some { data := data, new_data := true }))
      | none => some (WriteStatus.Failure, k)

/-- How a call of `read()` stands: it threw `std::runtime_error`, it is suspended in
`cond_var.wait`, or it returned a value. -/
inductive ReadOutcome (T : Type) where
  | threw
  | waiting
  | returned (value : T)
  deriving DecidableEq, Repr

/-- The loop `while (!new_data) cond_var.wait(lock);` and the two statements after it,
for the control block of segment `p`. The mutex is held except inside `wait`; `env`
lists what the other parties do to the host during the successive waits, one entry
for each time this call is woken. When `env` is used up and the flag is still unset
the call is left waiting. `none` is undefined behaviour, as in `write`. -/
def readLoop {T : Type} (p : Nat) : List (Host T → Host T) → Host T →
    Option (ReadOutcome T × Host T)
  | env, k =>
    match k.block p with
    | none => none
    | some sd =>
      if sd.new_data then
        some (ReadOutcome.returned sd.data, k.store p (some { sd with new_data := false }))
      else
        match env with
        | [] => some (ReadOutcome.waiting, k)
        | e :: rest => readLoop p rest (e k)

/-- The member `read()` run while the other parties make the moves `env`. -/
def readDuring {T : Type} (h : SharedMemory) (env : List (Host T → Host T)) (k : Host T) :
    Option (ReadOutcome T × Host T) :=
  match h.shared_data_ with
  | none => some (ReadOutcome.threw, k)
  | some p => readLoop p env k

/-- The member `read()` with nobody else touching the host. -/
def read {T : Type} (h : SharedMemory) (k : Host T) : Option (ReadOutcome T × Host T) :=
  readDuring h [] k

/-- The handle points at a control block that is alive. -/
def Attached {T : Type} (h : SharedMemory) (k : Host T) : Prop :=
  ∃ p sd, h.shared_data_ = some p ∧ k.block p = some sd

end SharedMemory

/-- Every segment a name denotes has been handed out. -/
def Host.WellFormed {T : Type} (k : Host T) : Prop :=
  ∀ name id, k.names name = some id → id < k.next

/-- What a call `w.write(v)` by another party does to the host, as a move that can
happen while a reader is suspended in `wait`. -/
def writeMove {T : Type} (w : SharedMemory) (v : T) : Host T → Host T :=
  fun k =>
    match w.write v k with
    | some r => r.2
    | none => k

/-- A move of another party that leaves the control block of segment `p` alive with
its flag unset whenever it finds it so: the party does not write to that block. -/
def Quiet {T : Type} (p : Nat) (e : Host T → Host T) : Prop :=
  ∀ k sd, k.block p = some sd → sd.new_data = false →
    ∃ sd2, (e k).block p = some sd2 ∧ sd2.new_data = false

/-- The host after the moves `env`, made in order. -/
def runMoves {T : Type} (env : List (Host T → Host T)) (k : Host T) : Host T :=
  env.foldl (fun s e => e s) k

/-! ## Definitions: the asynchronous variant of `asynchronous.h` -/

/-- The state of the member `write_future_`: default-constructed (`valid()` is false),
holding a task launched by `std::async` that has not stored its value yet, or holding
a task that has finished. -/
inductive WriteFuture (T : Type) where
  | invalid
  | outstanding (data : T)
  | finished
  deriving DecidableEq, Repr

/-- The data members of the asynchronous `SharedMemory<T>`: `name_`, the mapped segment
(`shm` and `region`), the pointer `shared_data` (this variant never sets it to null)
and `write_future_`. -/
structure AsyncSharedMemory (T : Type) where
  name_ : String
  region : Nat
  shared_data : Nat
  write_future_ : WriteFuture T
  deriving DecidableEq, Repr

namespace AsyncSharedMemory

/-- The constructor of the asynchronous variant: open or create, `truncate(sizeof(
SharedData))`, map, placement-construct; `write_future_` is default-constructed.
`none` is a constructor that throws. -/
def construct {T : Type} [Inhabited T] (L : Layout) (name : String) (k : Host T) :
    Option (AsyncSharedMemory T × Host T) :=
  let r := open_or_create name k
  match truncate r.1 (L.sizeofSharedData % 2 ^ 64) r.2.2 with
  | none => none
  | some k2 =>
    match mapped_region r.1 k2 with
    | none => none
    | some addr =>
      some ({ name_ := name, region := r.1, shared_data := addr,
              write_future_ := WriteFuture.invalid },
        k2.store addr (some SharedData.init))

/-- The body of the lambda that `write` hands to `std::async`: lock the mutex, store the
data, set `new_data`, notify. `none` is undefined behaviour: no control block is alive
behind the pointer. -/
def writeTask {T : Type} (p : Nat) (data : T) (k : Host T) : Option (Host T) :=
  match k.block p with
  | none => none
  | some _ => some (k.store p (some { data := data, new_data := true }))

/-- The scheduler lets the launched task of the handle run to its end. -/
def runTask {T : Type} (h : AsyncSharedMemory T) (k : Host T) :
    Option (AsyncSharedMemory T × Host T) :=
  match h.write_future_ with
  | WriteFuture.outstanding v =>
    (writeTask h.shared_data v k).map
      (fun k1 => ({ h with write_future_ := WriteFuture.finished }, k1))
  | _ => some (h, k)

/-- The call `write_future_.get()`: it returns when the task has finished, so a task
that is still outstanding runs to its end first; afterwards the future is not valid. -/
def get {T : Type} (h : AsyncSharedMemory T) (k : Host T) :
    Option (AsyncSharedMemory T × Host T) :=
  (runTask h k).map (fun r => ({ r.1 with write_future_ := WriteFuture.invalid }, r.2))

/-- The member `write(data)` of the asynchronous variant,
`write_future_ = std::async(std::launch::async, ...)`. The new task is launched, then
the assignment releases the previous state of the future, which waits for a previous
task that is still outstanding. The two tasks race for the mutex: `newFirst` says
whether the new task gets it before the previous one. -/
def write {T : Type} (h : AsyncSharedMemory T) (data : T) (newFirst : Bool) (k : Host T) :
    Option (AsyncSharedMemory T × Host T) :=
  match h.write_future_ with
  | WriteFuture.outstanding old =>
    if newFirst then
      match writeTask h.shared_data data k with
      | none => none
      | some k1 =>
        (writeTask h.shared_data old k1).map
          (fun k2 => ({ h with write_future_ := WriteFuture.finished }, k2))
    else
      (writeTask h.shared_data old k).map
        (fun k1 => ({ h with write_future_ := WriteFuture.outstanding data }, k1))
  | _ => some ({ h with write_future_ := WriteFuture.outstanding data }, k)

/-- The hosts the destructor of the asynchronous variant passes through, one for each
statement it executes, in order: the host in which `write_future_.get()` returns (the
statement is skipped when the future is not valid), then the host after
`shared_memory_object::remove(name_)`. -/
def destructStates {T : Type} (h : AsyncSharedMemory T) (k : Host T) :
    Option (List (Host T)) :=
  match h.write_future_ with
  | WriteFuture.invalid => some [remove h.name_ k]
  | _ => (get h k).map (fun r => [r.2, remove h.name_ r.2])

/-- The destructor of the asynchronous variant: `if (write_future_.valid())
write_future_.get();` and then `shared_memory_object::remove(name_)`. The result is
the last of the hosts it passes through. -/
def destruct {T : Type} (h : AsyncSharedMemory T) (k : Host T) : Option (Host T) :=
  (destructStates h k).bind List.getLast?

end AsyncSharedMemory

/-! ## Definitions: the Image payload -/

/-- The data members of `Image<T>`; `std::vector<T>` is a list. -/
structure Image (T : Type) where
  width_ : Nat
  height_ : Nat
  num_channels_ : Nat
  data_ : List T
  deriving DecidableEq, Repr

namespace Image

/-- The default constructor `Image()`. -/
def empty {T : Type} : Image T :=
  { width_ := 0, height_ := 0, num_channels_ := 0, data_ := [] }

/-- The constructor `Image(data, width, height, num_channels)`. -/
def fromData {T : Type} (data : List T) (width height num_channels : Nat) : Image T :=
  { width_ := width, height_ := height, num_channels_ := num_channels, data_ := data }

/-- The member `size()`, `width_ * height_` in `std::size_t`. -/
def size {T : Type} (a : Image T) : Nat := (a.width_ * a.height_) % 2 ^ 64

/-- The member `width()`. -/
def width {T : Type} (a : Image T) : Nat := a.width_

/-- The member `height()`. -/
def height {T : Type} (a : Image T) : Nat := a.height_

/-- The member `num_channels()`. -/
def num_channels {T : Type} (a : Image T) : Nat := a.num_channels_

/-- The member `readData()`. -/
def readData {T : Type} (a : Image T) : List T := a.data_

/-- The member `operator==`: width, height and data are compared. -/
def operatorEq {T : Type} [DecidableEq T] (a other : Image T) : Bool :=
  decide (a.width_ = other.width_) &&
    (decide (a.height_ = other.height_) && decide (a.data_ = other.data_))

/-- The constructor `Image(width, height, num_channels)`. The members are initialised
first, `data_` with `width_ * height_ * num_channels_` value-initialised elements, the
count taken in `std::size_t`; then the three assertions run. `none` is a failed
assertion. -/
def ofSize {T : Type} [Inhabited T] (width height num_channels : Nat) : Option (Image T) :=
  let img : Image T :=
    { width_ := width, height_ := height, num_channels_ := num_channels,
      data_ := List.replicate (((width * height) % 2 ^ 64 * num_channels) % 2 ^ 64) default }
  if 0 < num_channels then
    if 0 < width then
      if 0 < height then some img else none
    else none
  else none

/-- The local `idx` of `pixelValue`:
`channel * (height_ * width_) + (pixel_position_along_height * width_ +
pixel_position_along_width)` in `std::size_t`. -/
def idx {T : Type} (a : Image T) (pixel_position_along_width pixel_position_along_height
    channel : Nat) : Nat :=
  ((channel * ((a.height_ * a.width_) % 2 ^ 64)) % 2 ^ 64 +
    ((pixel_position_along_height * a.width_) % 2 ^ 64 + pixel_position_along_width)
      % 2 ^ 64) % 2 ^ 64

/-- The member `pixelValue` used to read: the assertion `idx < data_.size()`, then
`data_[idx]`. `none` is a failed assertion. -/
def pixelValue {T : Type} (a : Image T) (pixel_position_along_width
    pixel_position_along_height channel : Nat) : Option T :=
  if a.idx pixel_position_along_width pixel_position_along_height channel < a.data_.length
  then a.data_[a.idx pixel_position_along_width pixel_position_along_height channel]?
  else none

/-- The member `pixelValue` used to assign, `image.pixelValue(col, row, channel) = v`:
the assertion, then the element `data_[idx]` is overwritten. `none` is a failed
assertion. -/
def pixelValueAssign {T : Type} (a : Image T) (pixel_position_along_width
    pixel_position_along_height channel : Nat) (v : T) : Option (Image T) :=
  if a.idx pixel_position_along_width pixel_position_along_height channel < a.data_.length
  then
    some { a with
      data_ := a.data_.set
        (a.idx pixel_position_along_width pixel_position_along_height channel) v }
  else none

end Image

instance {T : Type} : Inhabited (Image T) := ⟨Image.empty⟩

/-! ## Concrete scenarios -/

/-- The sizes used in the concrete scenarios, those of the instantiation
`SharedMemory<int>` on x86-64 Linux: `sizeof(int)` is 4, and `SharedData` holds the
`int`, the flag, a `pthread_mutex_t` of 40 bytes and a `pthread_cond_t` of 48 bytes,
96 bytes with the padding. -/
def demoLayout : Layout := { sizeofSharedData := 96, sizeofT := 4 }

/-- The first statement of the test helper `performSharedMemoryTest`:
`SharedMemory<T> sharedMemory("SharedMemoryTest", sizeof(T))` on a host without
shared-memory objects, for the payload `int`: the handle and the host the constructor
gives. The constructor completes there; the pair after `getD` is never reached. -/
def demo : SharedMemory × Host Nat :=
  (SharedMemory.construct demoLayout "SharedMemoryTest" 4 Host.empty).getD
    ({ name_ := "SharedMemoryTest", region_ := 0, shared_data_ := none }, Host.empty)

/-- The host of `demo` after `write(7)` through its handle: the value 7 is pending. -/
def demoPending : Host Nat :=
  writeMove demo.1 7 demo.2

/-- The asynchronous variant constructed on the name "SharedMemoryTest" on a host
without shared-memory objects: the handle and the host the constructor gives. -/
def demoAsyncStart : AsyncSharedMemory Nat × Host Nat :=
  (AsyncSharedMemory.construct demoLayout "SharedMemoryTest" Host.empty).getD
    ({ name_ := "SharedMemoryTest", region := 0, shared_data := 0,
       write_future_ := WriteFuture.invalid }, Host.empty)

/-- The handle and the host of `demoAsyncStart` after the call `write(7)` of the
asynchronous variant: the task is launched and has not run yet. -/
def demoAsync : AsyncSharedMemory Nat × Host Nat :=
  (AsyncSharedMemory.write demoAsyncStart.1 7 false demoAsyncStart.2).getD demoAsyncStart

/-- The image of the demo program `imageClassOutput` in small: `Image(2, 2, 3)`. -/
def demoImage : Image Nat :=
  { width_ := 2, height_ := 2, num_channels_ := 3, data_ := List.replicate 12 0 }

/-! ## Lemmas on the host state -/

theorem Host.block_store_same {T : Type} (k : Host T) (p : Nat) (b : Option (SharedData T)) :
    (k.store p b).block p = b := by
  simp [Host.store, Host.block]

theorem Host.block_store_ne {T : Type} (k : Host T) (p q : Nat) (b : Option (SharedData T))
    (hne : q ≠ p) : (k.store p b).block q = k.block q := by
  simp [Host.store, Host.block, Function.update_noteq hne]

theorem Host.store_store {T : Type} (k : Host T) (p : Nat) (a b : Option (SharedData T)) :
    (k.store p a).store p b = k.store p b := by
  simp [Host.store]

theorem Host.names_store {T : Type} (k : Host T) (p : Nat) (b : Option (SharedData T)) :
    (k.store p b).names = k.names := rfl

theorem Host.next_store {T : Type} (k : Host T) (p : Nat) (b : Option (SharedData T)) :
    (k.store p b).next = k.next := rfl

namespace SharedMemory

theorem write_of_block {T : Type} (h : SharedMemory) (k : Host T) (v : T) (p : Nat)
    (sd : SharedData T) (hp : h.shared_data_ = some p) (hb : k.block p = some sd) :
    h.write v k =
      some (WriteStatus.Success, k.store p (some { data := v, new_data := true })) := by
  simp [write, hp, hb]

theorem readLoop_of_ready {T : Type} (p : Nat) (env : List (Host T → Host T)) (k : Host T)
    (sd : SharedData T) (hb : k.block p = some sd) (hf : sd.new_data = true) :
    readLoop p env k =
      some (ReadOutcome.returned sd.data, k.store p (some { sd with new_data := false })) := by
  cases env <;> simp [readLoop, hb, hf]

theorem readLoop_of_dead {T : Type} (p : Nat) (env : List (Host T → Host T)) (k : Host T)
    (hb : k.block p = none) : readLoop p env k = none := by
  cases env <;> simp [readLoop, hb]

theorem readLoop_nil_of_unset {T : Type} (p : Nat) (k : Host T)
    (sd : SharedData T) (hb : k.block p = some sd) (hf : sd.new_data = false) :
    readLoop p [] k = some (ReadOutcome.waiting, k) := by
  simp [readLoop, hb, hf]

theorem readLoop_cons_of_unset {T : Type} (p : Nat) (e : Host T → Host T)
    (rest : List (Host T → Host T)) (k : Host T)
    (sd : SharedData T) (hb : k.block p = some sd) (hf : sd.new_data = false) :
    readLoop p (e :: rest) k = readLoop p rest (e k) := by
  simp [readLoop, hb, hf]

theorem read_of_pending {T : Type} (h : SharedMemory) (k : Host T) (v : T) (p : Nat)
    (hp : h.shared_data_ = some p) :
    h.read (k.store p (some { data := v, new_data := true })) =
      some (ReadOutcome.returned v, k.store p (some { data := v, new_data := false })) := by
  simp [read, readDuring, hp, readLoop, Host.block_store_same, Host.store_store]

theorem open_or_create_of_some {T : Type} (name : String) (k : Host T) (id : Nat)
    (hid : k.names name = some id) : open_or_create name k = (id, false, k) := by
  simp [open_or_create, hid]

theorem open_or_create_of_none {T : Type} (name : String) (k : Host T)
    (hid : k.names name = none) :
    open_or_create name k =
      (k.next, true,
        { k with
          names := Function.update k.names name (some k.next)
          mem := Function.update k.mem k.next { size := 0, block := none }
          next := k.next + 1 }) := by
  simp [open_or_create, hid]

theorem open_or_create_grants {T : Type} (name : String) (k : Host T) :
    (open_or_create name k).2.2.grants = k.grants := by
  cases hid : k.names name with
  | none => rw [open_or_create_of_none name k hid]
  | some id => rw [open_or_create_of_some name k id hid]

theorem truncate_of_lt {T : Type} (id n : Nat) (k : Host T) (hn : n < 2 ^ 63) :
    truncate id n k =
      some { k with
        mem := Function.update k.mem id { size := n, block := (k.mem id).block } } := by
  unfold truncate
  rw [if_pos hn]

theorem truncate_of_not_lt {T : Type} (id n : Nat) (k : Host T) (hn : ¬ n < 2 ^ 63) :
    truncate id n k = none := by
  unfold truncate
  rw [if_neg hn]

theorem construct_of_some {T : Type} [Inhabited T] (L : Layout) (name : String) (n : Nat)
    (k : Host T) (r : SharedMemory × Host T) (hc : construct L name n k = some r) :
    segmentSize L n < 2 ^ 63 ∧ k.grants (segmentSize L n) = true ∧
      r.1 = { name_ := name, region_ := (open_or_create name k).1,
              shared_data_ := some (open_or_create name k).1 } ∧
      r.2.block (open_or_create name k).1 = some SharedData.init ∧
      r.2.names = (open_or_create name k).2.2.names ∧
      r.2.next = (open_or_create name k).2.2.next ∧
      (r.2.mem (open_or_create name k).1).size = segmentSize L n := by
  have hg := open_or_create_grants name k
  dsimp only [construct] at hc
  by_cases hsz : segmentSize L n < 2 ^ 63
  · rw [truncate_of_lt _ _ _ hsz] at hc
    simp only [mapped_region, Function.update_same, hg] at hc
    by_cases hgr : k.grants (segmentSize L n) = true
    · rw [if_pos hgr] at hc
      simp only [Option.some.injEq] at hc
      subst hc
      refine ⟨hsz, hgr, rfl, ?_, rfl, rfl, ?_⟩
      · simp [Host.store, Host.block]
      · simp [Host.store]
    · rw [if_neg hgr] at hc
      simp at hc
  · rw [truncate_of_not_lt _ _ _ hsz] at hc
    simp at hc

theorem construct_of_granted {T : Type} [Inhabited T] (L : Layout) (name : String) (n : Nat)
    (k : Host T) (hsz : segmentSize L n < 2 ^ 63)
    (hgr : k.grants (segmentSize L n) = true) :
    ∃ r, construct L name n k = some r := by
  have hg := open_or_create_grants name k
  dsimp only [construct]
  rw [truncate_of_lt _ _ _ hsz]
  simp only [mapped_region, Function.update_same, hg]
  rw [if_pos hgr]
  exact ⟨_, rfl⟩

theorem construct_of_refused {T : Type} [Inhabited T] (L : Layout) (name : String) (n : Nat)
    (k : Host T) (hsz : ¬ segmentSize L n < 2 ^ 63) :
    construct L name n k = none := by
  dsimp only [construct]
  rw [truncate_of_not_lt _ _ _ hsz]

theorem read_of_unset {T : Type} (h : SharedMemory) (k : Host T) (p : Nat)
    (sd : SharedData T) (hp : h.shared_data_ = some p) (hb : k.block p = some sd)
    (hf : sd.new_data = false) : h.read k = some (ReadOutcome.waiting, k) := by
  simp [read, readDuring, hp, readLoop_nil_of_unset p k sd hb hf]

theorem quiet_runMoves {T : Type} (p : Nat) (qs : List (Host T → Host T))
    (hq : ∀ e ∈ qs, Quiet p e) (k : Host T) (sd : SharedData T)
    (hb : k.block p = some sd) (hf : sd.new_data = false) :
    ∃ sd2, (runMoves qs k).block p = some sd2 ∧ sd2.new_data = false := by
  induction qs generalizing k sd with
  | nil => exact ⟨sd, hb, hf⟩
  | cons e rest ih =>
    obtain ⟨sd1, hb1, hf1⟩ := hq e (List.mem_cons_self _ _) k sd hb hf
    exact ih (fun e2 he2 => hq e2 (List.mem_cons_of_mem _ he2)) (e k) sd1 hb1 hf1

theorem readLoop_append_quiet {T : Type} (p : Nat) (qs rest : List (Host T → Host T))
    (hq : ∀ e ∈ qs, Quiet p e) (k : Host T) (sd : SharedData T)
    (hb : k.block p = some sd) (hf : sd.new_data = false) :
    readLoop p (qs ++ rest) k = readLoop p rest (runMoves qs k) := by
  induction qs generalizing k sd with
  | nil => rfl
  | cons e tl ih =>
    obtain ⟨sd1, hb1, hf1⟩ := hq e (List.mem_cons_self _ _) k sd hb hf
    rw [List.cons_append, readLoop_cons_of_unset p e (tl ++ rest) k sd hb hf]
    exact ih (fun e2 he2 => hq e2 (List.mem_cons_of_mem _ he2)) (e k) sd1 hb1 hf1

theorem readLoop_returned {T : Type} (p : Nat) (env : List (Host T → Host T)) (k k1 : Host T)
    (v : T) (hr : readLoop p env k = some (ReadOutcome.returned v, k1)) :
    ∃ n sd, (runMoves (env.take n) k).block p = some sd ∧ sd.new_data = true ∧
      v = sd.data ∧
      k1 = (runMoves (env.take n) k).store p (some { sd with new_data := false }) := by
  induction env generalizing k with
  | nil =>
    cases hb : k.block p with
    | none => simp [readLoop_of_dead p [] k hb] at hr
    | some sd =>
      cases hf : sd.new_data with
      | false => simp [readLoop_nil_of_unset p k sd hb hf] at hr
      | true =>
        rw [readLoop_of_ready p [] k sd hb hf] at hr
        simp only [Option.some.injEq, Prod.mk.injEq, ReadOutcome.returned.injEq] at hr
        exact ⟨0, sd, hb, hf, hr.1.symm, hr.2.symm⟩
  | cons e rest ih =>
    cases hb : k.block p with
    | none => simp [readLoop_of_dead p (e :: rest) k hb] at hr
    | some sd =>
      cases hf : sd.new_data with
      | false =>
        rw [readLoop_cons_of_unset p e rest k sd hb hf] at hr
        obtain ⟨n, sd1, h1, h2, h3, h4⟩ := ih (e k) hr
        exact ⟨n + 1, sd1, h1, h2, h3, h4⟩
      | true =>
        rw [readLoop_of_ready p (e :: rest) k sd hb hf] at hr
        simp only [Option.some.injEq, Prod.mk.injEq, ReadOutcome.returned.injEq] at hr
        exact ⟨0, sd, hb, hf, hr.1.symm, hr.2.symm⟩

theorem writeMove_of_block {T : Type} (w : SharedMemory) (v : T) (k : Host T) (p : Nat)
    (sd : SharedData T) (hp : w.shared_data_ = some p) (hb : k.block p = some sd) :
    writeMove w v k = k.store p (some { data := v, new_data := true }) := by
  simp [writeMove, write_of_block w k v p sd hp hb]

theorem destruct_of_some {T : Type} (h : SharedMemory) (k : Host T) (p : Nat)
    (hp : h.shared_data_ = some p) : destruct h k = remove h.name_ (k.store p none) := by
  simp [destruct, hp]

theorem destruct_of_none {T : Type} (h : SharedMemory) (k : Host T)
    (hp : h.shared_data_ = none) : destruct h k = k := by
  simp [destruct, hp]

theorem names_remove_same {T : Type} (name : String) (k : Host T) :
    (remove name k).names name = none := by
  simp [remove]

theorem grants_destruct {T : Type} (h : SharedMemory) (k : Host T) :
    (destruct h k).grants = k.grants := by
  cases hp : h.shared_data_ with
  | none => rw [destruct_of_none h k hp]
  | some p =>
    rw [destruct_of_some h k p hp]
    rfl

theorem wellFormed_empty {T : Type} : (Host.empty : Host T).WellFormed := by
  intro name id hid
  simp [Host.empty] at hid

theorem wellFormed_construct {T : Type} [Inhabited T] (L : Layout) (name : String) (n : Nat)
    (k : Host T) (hk : k.WellFormed) (r : SharedMemory × Host T)
    (hc : construct L name n k = some r) : r.2.WellFormed := by
  obtain ⟨_, _, _, _, hnames, hnext, _⟩ := construct_of_some L name n k r hc
  intro nm id hid
  rw [hnames] at hid
  rw [hnext]
  cases hn : k.names name with
  | some j =>
    rw [open_or_create_of_some name k j hn] at hid ⊢
    exact hk nm id hid
  | none =>
    rw [open_or_create_of_none name k hn] at hid ⊢
    simp only at hid ⊢
    by_cases hnm : nm = name
    · subst hnm
      rw [Function.update_same] at hid
      injection hid with hid
      omega
    · rw [Function.update_noteq hnm] at hid
      exact Nat.lt_succ_of_lt (hk nm id hid)

theorem wellFormed_destruct {T : Type} (h : SharedMemory) (k : Host T) (hk : k.WellFormed) :
    (destruct h k).WellFormed := by
  intro nm id hid
  cases hp : h.shared_data_ with
  | none =>
    rw [destruct_of_none h k hp] at hid ⊢
    exact hk nm id hid
  | some p =>
    rw [destruct_of_some h k p hp] at hid ⊢
    simp only [remove, Host.names_store, Host.next_store] at hid ⊢
    by_cases hnm : nm = h.name_
    · subst hnm
      rw [Function.update_same] at hid
      exact absurd hid (by simp)
    · rw [Function.update_noteq hnm] at hid
      exact hk nm id hid

end SharedMemory

/-! ## The write and read contract -/

namespace SharedMemory

/-- C1. Round trip: on a handle attached to a live control block, in whatever state
the flag and the slot are, `write(v)` returns `Success` and the `read()` that follows
returns `v`. -/
theorem write_then_read_roundtrip {T : Type} (h : SharedMemory) (k : Host T) (v : T)
    (hatt : Attached h k) :
    ∃ k1 k2, h.write v k = some (WriteStatus.Success, k1) ∧
      h.read k1 = some (ReadOutcome.returned v, k2) := by
  obtain ⟨p, sd, hp, hb⟩ := hatt
  exact ⟨_, _, write_of_block h k v p sd hp hb, read_of_pending h k v p hp⟩

/-- Witness of C1 on the handle of the test helper, with the value 42. -/
theorem write_then_read_roundtrip_witness :
    Attached demo.1 demo.2 ∧
      ∃ k1 k2, demo.1.write 42 demo.2 = some (WriteStatus.Success, k1) ∧
        demo.1.read k1 = some (ReadOutcome.returned 42, k2) :=
  ⟨⟨0, SharedData.init, rfl, rfl⟩,
    write_then_read_roundtrip demo.1 demo.2 42 ⟨0, SharedData.init, rfl, rfl⟩⟩

/-- C2. Last write wins: on an attached handle, `write(v1)` then `write(v2)` with
`v1 ≠ v2` and no read in between both succeed, the `read()` after them returns `v2`
and not `v1`, and the host after the two writes is the host after `write(v2)` alone. -/
theorem last_write_wins {T : Type} (h : SharedMemory) (k : Host T) (v1 v2 : T)
    (hatt : Attached h k) (hne : v1 ≠ v2) :
    ∃ k1 k2 k3, h.write v1 k = some (WriteStatus.Success, k1) ∧
      h.write v2 k1 = some (WriteStatus.Success, k2) ∧
      h.read k2 = some (ReadOutcome.returned v2, k3) ∧
      h.read k2 ≠ some (ReadOutcome.returned v1, k3) ∧
      h.write v2 k = some (WriteStatus.Success, k2) := by
  obtain ⟨p, sd, hp, hb⟩ := hatt
  have h1 := write_of_block h k v1 p sd hp hb
  have h2 := write_of_block h (k.store p (some { data := v1, new_data := true })) v2 p
    { data := v1, new_data := true } hp (Host.block_store_same _ _ _)
  rw [Host.store_store] at h2
  have h3 := read_of_pending h k v2 p hp
  refine ⟨_, _, _, h1, h2, h3, ?_, write_of_block h k v2 p sd hp hb⟩
  rw [h3]
  intro hc
  injection hc with hc
  injection hc with hc _
  injection hc with hc
  exact hne hc.symm

/-- Witness of C2 on the handle of the test helper, with the values 1 and 2. -/
theorem last_write_wins_witness :
    Attached demo.1 demo.2 ∧ (1 : Nat) ≠ 2 ∧
      ∃ k1 k2 k3, demo.1.write 1 demo.2 = some (WriteStatus.Success, k1) ∧
        demo.1.write 2 k1 = some (WriteStatus.Success, k2) ∧
        demo.1.read k2 = some (ReadOutcome.returned 2, k3) ∧
        demo.1.read k2 ≠ some (ReadOutcome.returned 1, k3) ∧
        demo.1.write 2 demo.2 = some (WriteStatus.Success, k2) :=
  ⟨⟨0, SharedData.init, rfl, rfl⟩, by decide,
    last_write_wins demo.1 demo.2 1 2 ⟨0, SharedData.init, rfl, rfl⟩ (by decide)⟩

/-- C3. `write(v)` returns `Failure` exactly when `shared_data_` is null; on a handle
whose control block is alive it returns `Success`, also when the flag is set and the
write replaces a pending value that was never read. -/
theorem write_failure_iff_null {T : Type} (h : SharedMemory) (k : Host T) (v : T) :
    ((∃ k1, h.write v k = some (WriteStatus.Failure, k1)) ↔ h.shared_data_ = none) ∧
      (∀ p sd, h.shared_data_ = some p → k.block p = some sd → sd.new_data = true →
        ∃ k1, h.write v k = some (WriteStatus.Success, k1) ∧
          k1.block p = some { data := v, new_data := true }) := by
  constructor
  · constructor
    · rintro ⟨k1, hw⟩
      cases hp : h.shared_data_ with
      | none => rfl
      | some p =>
        cases hb : k.block p with
        | none => simp [write, hp, hb] at hw
        | some sd => simp [write, hp, hb] at hw
    · intro hp
      exact ⟨k, by simp [write, hp]⟩
  · intro p sd hp hb _
    exact ⟨_, write_of_block h k v p sd hp hb, Host.block_store_same _ _ _⟩

/-- Witness of C3: the handle of the test helper with 7 pending accepts `write(9)`, and
the same handle after `setSharedDataNullptr()` reports `Failure`. -/
theorem write_failure_iff_null_witness :
    (∃ k1, demo.1.write 9 demoPending = some (WriteStatus.Success, k1) ∧
        k1.block 0 = some { data := 9, new_data := true }) ∧
      ∃ k1, demo.1.setSharedDataNullptr.write 9 demoPending =
        some (WriteStatus.Failure, k1) :=
  ⟨(write_failure_iff_null demo.1 demoPending 9).2 0 { data := 7, new_data := true }
      rfl rfl rfl,
    (write_failure_iff_null demo.1.setSharedDataNullptr demoPending 9).1.2 rfl⟩

/-- C4. After `setSharedDataNullptr()` a `read()` throws `std::runtime_error`: it
neither returns a value nor waits, whatever the host holds (flag and slot of the
segment included) and whatever the other parties do, and the host is left as it was. -/
theorem read_null_throws {T : Type} (h : SharedMemory) (k : Host T)
    (env : List (Host T → Host T)) :
    h.setSharedDataNullptr.read k = some (ReadOutcome.threw, k) ∧
      h.setSharedDataNullptr.readDuring env k = some (ReadOutcome.threw, k) := by
  simp [read, readDuring, setSharedDataNullptr]

/-! ## Construction and the wait of `read` -/

/-- C5, the claim refuted. On the host where the test helper's handle has written 7,
the name denotes segment 0 and its flag is set; constructing a second channel on the
same name completes, attaches to segment 0 and leaves its flag unset, and the read
through the second handle waits instead of returning 7. -/
theorem attach_keeps_block_counterexample :
    ∃ r, construct demoLayout "SharedMemoryTest" 4 demoPending = some r ∧
      demoPending.names "SharedMemoryTest" = some 0 ∧
      (demoPending.block 0).map SharedData.new_data = some true ∧
      r.1.shared_data_ = some 0 ∧
      (r.2.block 0).map SharedData.new_data = some false ∧
      r.1.read r.2 = some (ReadOutcome.waiting, r.2) :=
  ⟨_, rfl, rfl, rfl, rfl, rfl, rfl⟩

/-- C5 as amended. Constructing a channel placement-constructs the control block
whether the segment was created or already existed. The constructor completes when
the requested size passes `truncate` and the host grants it; and for every
construction that completes, the handle points at the segment the name denoted, the
flag of that segment is unset afterwards whatever it was, and a `read()` through any
handle on that segment waits, so a value written before the construction is no longer
pending. -/
theorem construct_resets_flag {T : Type} [Inhabited T] (L : Layout) (name : String)
    (n : Nat) (k : Host T) :
    (segmentSize L n < 2 ^ 63 → k.grants (segmentSize L n) = true →
        ∃ r, construct L name n k = some r) ∧
      ∀ r, construct L name n k = some r →
        (∀ id, k.names name = some id → r.1.shared_data_ = some id) ∧
        (∃ p sd, r.1.shared_data_ = some p ∧
          r.2.block p = some sd ∧ sd.new_data = false ∧
          ∀ h : SharedMemory, h.shared_data_ = some p →
            h.read r.2 = some (ReadOutcome.waiting, r.2)) := by
  refine ⟨construct_of_granted L name n k, ?_⟩
  intro r hc
  obtain ⟨_, _, hh, hb, _⟩ := construct_of_some L name n k r hc
  constructor
  · intro id hid
    rw [hh, open_or_create_of_some name k id hid]
  · refine ⟨(open_or_create name k).1, SharedData.init, by rw [hh], hb, rfl, ?_⟩
    intro h hp
    exact read_of_unset h _ _ SharedData.init hp hb rfl

/-- Witness of C5 as amended: the second construction of the counterexample completes
and attaches to segment 0, which the name denoted. -/
theorem construct_resets_flag_witness :
    demoPending.names "SharedMemoryTest" = some 0 ∧
      ∃ r, construct demoLayout "SharedMemoryTest" 4 demoPending = some r ∧
        r.1.shared_data_ = some 0 :=
  ⟨rfl, _, rfl,
    ((construct_resets_flag demoLayout "SharedMemoryTest" 4 demoPending).2 _ rfl).1 0 rfl⟩

/-- C6. Blocking until ready, for a handle whose control block is alive. A `read()`
that returns a value returns it from a host state in which the flag is set, and the
value is the slot of that state. When the flag is unset the call waits, and keeps
waiting however often it is woken while the other parties leave the flag unset. When a
party then writes `v` through a handle on the same block, the call returns `v`. -/
theorem read_blocks_until_ready {T : Type} (h : SharedMemory) (k : Host T) (p : Nat)
    (sd : SharedData T) (hp : h.shared_data_ = some p) (hb : k.block p = some sd) :
    (∀ env v k1, h.readDuring env k = some (ReadOutcome.returned v, k1) →
        ∃ m sd1, (runMoves (env.take m) k).block p = some sd1 ∧ sd1.new_data = true ∧
          v = sd1.data) ∧
      (sd.new_data = false →
        h.read k = some (ReadOutcome.waiting, k) ∧
        (∀ qs, (∀ e ∈ qs, Quiet p e) →
          h.readDuring qs k = some (ReadOutcome.waiting, runMoves qs k)) ∧
        (∀ qs rest (w : SharedMemory) (v : T), (∀ e ∈ qs, Quiet p e) →
          w.shared_data_ = some p →
          ∃ k1, h.readDuring (qs ++ writeMove w v :: rest) k =
            some (ReadOutcome.returned v, k1))) := by
  refine ⟨?_, ?_⟩
  · intro env v k1 hr
    simp only [readDuring, hp] at hr
    obtain ⟨m, sd1, h1, h2, h3, _⟩ := readLoop_returned p env k k1 v hr
    exact ⟨m, sd1, h1, h2, h3⟩
  · intro hf
    refine ⟨read_of_unset h k p sd hp hb hf, ?_, ?_⟩
    · intro qs hq
      obtain ⟨sd2, hb2, hf2⟩ := quiet_runMoves p qs hq k sd hb hf
      have happ := readLoop_append_quiet p qs [] hq k sd hb hf
      rw [List.append_nil] at happ
      simp only [readDuring, hp]
      rw [happ]
      exact readLoop_nil_of_unset p _ sd2 hb2 hf2
    · intro qs rest w v hq hw
      obtain ⟨sd2, hb2, hf2⟩ := quiet_runMoves p qs hq k sd hb hf
      simp only [readDuring, hp]
      rw [readLoop_append_quiet p qs (writeMove w v :: rest) hq k sd hb hf,
        readLoop_cons_of_unset p (writeMove w v) rest _ sd2 hb2 hf2,
        writeMove_of_block w v _ p sd2 hw hb2]
      exact ⟨_, readLoop_of_ready p rest _ { data := v, new_data := true }
        (Host.block_store_same _ _ _) rfl⟩

/-- Witness of C6 on the freshly constructed handle of the test helper: the read before
any write waits, it still waits after being woken with nothing changed, and it returns
5 once `write(5)` has happened during the wait. -/
theorem read_blocks_until_ready_witness :
    demo.1.shared_data_ = some 0 ∧ demo.2.block 0 = some SharedData.init ∧
      demo.1.read demo.2 = some (ReadOutcome.waiting, demo.2) ∧
      demo.1.readDuring [fun s => s] demo.2 =
        some (ReadOutcome.waiting, runMoves [fun s => s] demo.2) ∧
      ∃ k1, demo.1.readDuring ([fun s => s] ++ writeMove demo.1 5 :: []) demo.2 =
        some (ReadOutcome.returned 5, k1) :=
  have hq : ∀ e ∈ [fun s : Host Nat => s], Quiet 0 e := by
    intro e he
    rw [List.mem_singleton] at he
    subst he
    exact fun k sd hb hf => ⟨sd, hb, hf⟩
  ⟨rfl, rfl, ((read_blocks_until_ready demo.1 demo.2 0 SharedData.init rfl rfl).2 rfl).1,
    ((read_blocks_until_ready demo.1 demo.2 0 SharedData.init rfl rfl).2 rfl).2.1 _ hq,
    ((read_blocks_until_ready demo.1 demo.2 0 SharedData.init rfl rfl).2 rfl).2.2
      _ [] demo.1 5 hq rfl⟩

/-! ## Destruction and first construction -/

/-- C8, the claim refuted. The handle of the test helper, invalidated with
`setSharedDataNullptr()` and then destroyed, leaves the name in place: it still denotes
segment 0, a later `open_or_create` on the name opens that segment instead of
creating one, and a later construct on the name attaches to segment 0. -/
theorem destruct_after_nullptr_counterexample :
    ∃ r, construct demoLayout "SharedMemoryTest" 4
          (destruct demo.1.setSharedDataNullptr demo.2) = some r ∧
      demo.2.names "SharedMemoryTest" = some 0 ∧
      (destruct demo.1.setSharedDataNullptr demo.2).names "SharedMemoryTest" = some 0 ∧
      (open_or_create "SharedMemoryTest"
        (destruct demo.1.setSharedDataNullptr demo.2)).2.1 = false ∧
      r.1.region_ = 0 :=
  ⟨_, rfl, rfl, rfl, rfl, rfl⟩

/-- C8 as amended. Destroying a handle whose `shared_data_` is not null removes the
named object: the name denotes nothing afterwards, a later construct on the name
creates a segment, and on a well-formed host that segment is none of the segments a
name denoted before. Destroying a handle whose `shared_data_` is null leaves the host
as it was, so a segment the name denoted is still there and a later construct opens
it. The later construct completes when the requested size passes `truncate` and the
host grants it, and what is said of it holds for every construct that completes. -/
theorem destruct_removes_segment {T : Type} [Inhabited T] (h : SharedMemory) (k : Host T)
    (L : Layout) (n : Nat) :
    (segmentSize L n < 2 ^ 63 → k.grants (segmentSize L n) = true →
        ∃ r, construct L h.name_ n (destruct h k) = some r) ∧
      (∀ p, h.shared_data_ = some p →
        (destruct h k).names h.name_ = none ∧
        (open_or_create h.name_ (destruct h k)).2.1 = true ∧
        ∀ r, construct L h.name_ n (destruct h k) = some r →
          r.1.region_ = k.next ∧
          (k.WellFormed → ∀ name id, k.names name = some id → r.1.region_ ≠ id)) ∧
      (h.shared_data_ = none →
        destruct h k = k ∧
        ∀ id, k.names h.name_ = some id →
          (open_or_create h.name_ (destruct h k)).2.1 = false ∧
          ∀ r, construct L h.name_ n (destruct h k) = some r → r.1.region_ = id) := by
  refine ⟨?_, ?_, ?_⟩
  · intro hsz hgr
    exact construct_of_granted L h.name_ n _ hsz (by rw [grants_destruct]; exact hgr)
  · intro p hp
    have hnone : (destruct h k).names h.name_ = none := by
      rw [destruct_of_some h k p hp]
      exact names_remove_same _ _
    have hnext : (destruct h k).next = k.next := by
      rw [destruct_of_some h k p hp]
      rfl
    refine ⟨hnone, ?_, ?_⟩
    · rw [open_or_create_of_none _ _ hnone]
    · intro r hc
      obtain ⟨_, _, hh, _⟩ := construct_of_some L h.name_ n _ r hc
      have hreg : r.1.region_ = k.next := by
        rw [hh, open_or_create_of_none _ _ hnone]
        exact hnext
      refine ⟨hreg, ?_⟩
      intro hk name id hid
      rw [hreg]
      exact (Nat.ne_of_lt (hk name id hid)).symm
  · intro hp
    refine ⟨destruct_of_none h k hp, ?_⟩
    intro id hid
    rw [destruct_of_none h k hp]
    refine ⟨by rw [open_or_create_of_some _ _ id hid], ?_⟩
    intro r hc
    obtain ⟨_, _, hh, _⟩ := construct_of_some L h.name_ n _ r hc
    rw [hh, open_or_create_of_some _ _ id hid]

/-- Witness of C8 as amended: destroying the handle of the test helper removes the
name, and the same handle invalidated first leaves the host as it was. -/
theorem destruct_removes_segment_witness :
    (destruct demo.1 demo.2).names "SharedMemoryTest" = none ∧
      destruct demo.1.setSharedDataNullptr demo.2 = demo.2 :=
  ⟨((destruct_removes_segment demo.1 demo.2 demoLayout 4).2.1 0 rfl).1,
    ((destruct_removes_segment demo.1.setSharedDataNullptr demo.2 demoLayout 4).2.2 rfl).1⟩

/-- C9. Constructing a channel on a name that denotes no segment creates the segment,
registers it under the name and leaves its flag unset: the channel is attached and
empty, and a `read()` through it waits. The constructor completes when the requested
size passes `truncate` and the host grants it, and the rest holds for every
construction that completes. -/
theorem construct_new_name_is_empty {T : Type} [Inhabited T] (L : Layout) (name : String)
    (n : Nat) (k : Host T) (hnew : k.names name = none) :
    (open_or_create name k).2.1 = true ∧
      (segmentSize L n < 2 ^ 63 → k.grants (segmentSize L n) = true →
        ∃ r, construct L name n k = some r) ∧
      ∀ r, construct L name n k = some r →
        r.2.names name = some k.next ∧
        r.1.shared_data_ = some k.next ∧
        (∃ sd, r.2.block k.next = some sd ∧ sd.new_data = false) ∧
        r.1.read r.2 = some (ReadOutcome.waiting, r.2) := by
  have hreg : (open_or_create name k).1 = k.next := by
    rw [open_or_create_of_none name k hnew]
  refine ⟨by rw [open_or_create_of_none name k hnew], construct_of_granted L name n k, ?_⟩
  intro r hc
  obtain ⟨_, _, hh, hb, hnames, _⟩ := construct_of_some L name n k r hc
  rw [hreg] at hh hb
  have hp : r.1.shared_data_ = some k.next := by rw [hh]
  refine ⟨?_, hp, ⟨SharedData.init, hb, rfl⟩, ?_⟩
  · rw [hnames, open_or_create_of_none name k hnew]
    simp
  · exact read_of_unset _ _ k.next SharedData.init hp hb rfl

/-- Witness of C9: the constructor call of the test helper on a host without
shared-memory objects completes and gives `demo`. -/
theorem construct_new_name_is_empty_witness :
    (Host.empty : Host Nat).names "SharedMemoryTest" = none ∧
      construct demoLayout "SharedMemoryTest" 4 (Host.empty : Host Nat) = some demo ∧
      demo.2.names "SharedMemoryTest" = some 0 ∧
      demo.1.read demo.2 = some (ReadOutcome.waiting, demo.2) :=
  ⟨rfl, rfl,
    ((construct_new_name_is_empty demoLayout "SharedMemoryTest" 4
      (Host.empty : Host Nat) rfl).2.2 demo rfl).1,
    ((construct_new_name_is_empty demoLayout "SharedMemoryTest" 4
      (Host.empty : Host Nat) rfl).2.2 demo rfl).2.2.2⟩

end SharedMemory

/-! ## Image equality -/

namespace Image

/-- What `operator==` decides: equal width, equal height and equal data; the channel
count takes no part. -/
theorem operatorEq_iff {T : Type} [DecidableEq T] (a b : Image T) :
    a.operatorEq b = true ↔
      a.width_ = b.width_ ∧ a.height_ = b.height_ ∧ a.data_ = b.data_ := by
  simp [operatorEq]

/-- C10 on the code. Two images of width 0 and height 5 with empty data, one with one
channel and one with two, both with a backing store of `width*height*num_channels`
elements, compare equal although their channel counts differ; so do two 2 by 2 images
over the same four elements. -/
theorem operatorEq_ignores_num_channels :
    (fromData ([] : List Nat) 0 5 1).operatorEq (fromData [] 0 5 2) = true ∧
      (fromData ([] : List Nat) 0 5 1).num_channels ≠ (fromData ([] : List Nat) 0 5 2).num_channels ∧
      (fromData [1, 2, 3, 4] 2 2 1).operatorEq (fromData [1, 2, 3, 4] 2 2 2) = true ∧
      (fromData [1, 2, 3, 4] 2 2 1).num_channels ≠ (fromData [1, 2, 3, 4] 2 2 2).num_channels := by
  decide

end Image

/-! ## Lemmas on the flat index of `pixelValue` -/

namespace Image

theorem ofSize_eq_some {T : Type} [Inhabited T] (w h c : Nat) (a : Image T)
    (ha : ofSize w h c = some a) :
    0 < c ∧ 0 < w ∧ 0 < h ∧
      a = { width_ := w, height_ := h, num_channels_ := c,
            data_ := List.replicate (((w * h) % 2 ^ 64 * c) % 2 ^ 64) default } := by
  unfold ofSize at ha
  by_cases hc : 0 < c
  · by_cases hw : 0 < w
    · by_cases hh : 0 < h
      · simp only [hc, hw, hh, if_true, Option.some.injEq] at ha
        exact ⟨hc, hw, hh, ha.symm⟩
      · simp [hc, hw, hh] at ha
    · simp [hc, hw] at ha
  · simp [hc] at ha

theorem idx_of_noWrap {T : Type} (a : Image T) (col row ch : Nat)
    (hfit : ch * (a.height_ * a.width_) + (row * a.width_ + col) < 2 ^ 64)
    (hhw : a.height_ * a.width_ < 2 ^ 64) :
    a.idx col row ch = ch * (a.height_ * a.width_) + (row * a.width_ + col) := by
  have h1 : ch * (a.height_ * a.width_) < 2 ^ 64 := by omega
  have h2 : row * a.width_ < 2 ^ 64 := by omega
  have h3 : row * a.width_ + col < 2 ^ 64 := by omega
  unfold idx
  rw [Nat.mod_eq_of_lt hhw, Nat.mod_eq_of_lt h1, Nat.mod_eq_of_lt h2, Nat.mod_eq_of_lt h3,
    Nat.mod_eq_of_lt hfit]

theorem flat_lt_of_inBounds (W H C col row ch : Nat) (hc : col < W) (hr : row < H)
    (hch : ch < C) :
    row * W + col < H * W ∧ ch * (H * W) + (row * W + col) < W * H * C ∧ H * W ≤ W * H * C := by
  have hx : row * W + col < H * W := by
    calc row * W + col < row * W + W := by omega
      _ = (row + 1) * W := by ring
      _ ≤ H * W := Nat.mul_le_mul_right W hr
  have hy : ch * (H * W) + (row * W + col) < W * H * C := by
    calc ch * (H * W) + (row * W + col) < ch * (H * W) + H * W := by omega
      _ = (ch + 1) * (H * W) := by ring
      _ ≤ C * (H * W) := Nat.mul_le_mul_right (H * W) hch
      _ = W * H * C := by ring
  refine ⟨hx, hy, ?_⟩
  calc H * W = W * H * 1 := by ring
    _ ≤ W * H * C := Nat.mul_le_mul_left (W * H) (by omega)

theorem idx_of_inBounds {T : Type} (a : Image T) (col row ch : Nat)
    (hfit : a.width_ * a.height_ * a.num_channels_ < 2 ^ 64)
    (hc : col < a.width_) (hr : row < a.height_) (hch : ch < a.num_channels_) :
    a.idx col row ch = ch * (a.height_ * a.width_) + (row * a.width_ + col) ∧
      a.idx col row ch < a.width_ * a.height_ * a.num_channels_ := by
  obtain ⟨_, hy, hz⟩ := flat_lt_of_inBounds a.width_ a.height_ a.num_channels_ col row ch hc hr hch
  have hi := idx_of_noWrap a col row ch (by omega) (by omega)
  exact ⟨hi, by rw [hi]; exact hy⟩

theorem divmod_unique (n q r q2 r2 : Nat) (hr : r < n) (hr2 : r2 < n)
    (he : q * n + r = q2 * n + r2) : q = q2 ∧ r = r2 := by
  have hq : q = q2 := by
    rcases Nat.lt_trichotomy q q2 with hlt | heq | hgt
    · exfalso
      have h1 : (q + 1) * n ≤ q2 * n := Nat.mul_le_mul_right n hlt
      have h2 : (q + 1) * n = q * n + n := by ring
      omega
    · exact heq
    · exfalso
      have h1 : (q2 + 1) * n ≤ q * n := Nat.mul_le_mul_right n hgt
      have h2 : (q2 + 1) * n = q2 * n + n := by ring
      omega
  subst hq
  exact ⟨rfl, by omega⟩

theorem idx_injective {T : Type} (a : Image T) (col row ch col2 row2 ch2 : Nat)
    (hfit : a.width_ * a.height_ * a.num_channels_ < 2 ^ 64)
    (hc : col < a.width_) (hr : row < a.height_) (hch : ch < a.num_channels_)
    (hc2 : col2 < a.width_) (hr2 : row2 < a.height_) (hch2 : ch2 < a.num_channels_)
    (he : a.idx col row ch = a.idx col2 row2 ch2) :
    col = col2 ∧ row = row2 ∧ ch = ch2 := by
  rw [(idx_of_inBounds a col row ch hfit hc hr hch).1,
    (idx_of_inBounds a col2 row2 ch2 hfit hc2 hr2 hch2).1] at he
  have hx := (flat_lt_of_inBounds a.width_ a.height_ a.num_channels_ col row ch hc hr hch).1
  have hx2 :=
    (flat_lt_of_inBounds a.width_ a.height_ a.num_channels_ col2 row2 ch2 hc2 hr2 hch2).1
  obtain ⟨h1, h2⟩ := divmod_unique _ ch _ ch2 _ hx hx2 he
  obtain ⟨h3, h4⟩ := divmod_unique _ row _ row2 _ hc hc2 h2
  exact ⟨h4, h3, h1⟩

theorem length_ofSize {T : Type} [Inhabited T] (w h c : Nat) (a : Image T)
    (ha : ofSize w h c = some a) :
    a.width_ = w ∧ a.height_ = h ∧ a.num_channels_ = c ∧
      a.data_ = List.replicate (((w * h) % 2 ^ 64 * c) % 2 ^ 64) default ∧
      a.data_.length = ((w * h) % 2 ^ 64 * c) % 2 ^ 64 := by
  obtain ⟨_, _, _, rfl⟩ := ofSize_eq_some w h c a ha
  exact ⟨rfl, rfl, rfl, rfl, List.length_replicate _ _⟩

theorem wrapped_count_of_fit (w h c : Nat) (hc : 0 < c) (hfit : w * h * c < 2 ^ 64) :
    ((w * h) % 2 ^ 64 * c) % 2 ^ 64 = w * h * c := by
  have h1 : w * h ≤ w * h * c := Nat.le_mul_of_pos_right (w * h) hc
  rw [Nat.mod_eq_of_lt (by omega : w * h < 2 ^ 64), Nat.mod_eq_of_lt hfit]

theorem assign_same {T : Type} (a : Image T) (col row ch : Nat) (v : T)
    (hlt : a.idx col row ch < a.data_.length) :
    ∃ a2, a.pixelValueAssign col row ch v = some a2 ∧ a2.pixelValue col row ch = some v ∧
      a2.width_ = a.width_ ∧ a2.height_ = a.height_ ∧
      a2.num_channels_ = a.num_channels_ := by
  refine ⟨{ a with data_ := a.data_.set (a.idx col row ch) v }, ?_, ?_, rfl, rfl, rfl⟩
  · simp [pixelValueAssign, hlt]
  · have hi : ({ a with data_ := a.data_.set (a.idx col row ch) v } : Image T).idx col row ch
        = a.idx col row ch := rfl
    simp [pixelValue, hi, hlt]

theorem assign_other {T : Type} (a a2 : Image T) (col row ch col2 row2 ch2 : Nat) (v : T)
    (ha2 : a.pixelValueAssign col row ch v = some a2)
    (hne : a.idx col row ch ≠ a.idx col2 row2 ch2) :
    a2.pixelValue col2 row2 ch2 = a.pixelValue col2 row2 ch2 := by
  unfold pixelValueAssign at ha2
  by_cases hlt : a.idx col row ch < a.data_.length
  · simp only [hlt, if_true, Option.some.injEq] at ha2
    subst ha2
    have hi : ({ a with data_ := a.data_.set (a.idx col row ch) v } : Image T).idx col2 row2 ch2
        = a.idx col2 row2 ch2 := rfl
    simp [pixelValue, hi, List.getElem?_set_ne hne]
  · simp [hlt] at ha2

/-! ## Element access of the Image payload -/

/-- C11, the claim refuted. `Image(2^32, 2^32, 1)` passes the three assertions of the
constructor, its element count `width*height*num_channels` wraps to 0 in `std::size_t`,
and `pixelValue(0, 0, 0)`, whose three arguments are in bounds, computes the flat
index 0 and fails the bounds assertion. -/
theorem pixelValue_inBounds_counterexample :
    ∃ a : Image Nat, ofSize (2 ^ 32) (2 ^ 32) 1 = some a ∧
      0 < a.width_ ∧ 0 < a.height_ ∧ 0 < a.num_channels_ ∧
      a.data_.length = 0 ∧ a.idx 0 0 0 = 0 ∧ a.pixelValue 0 0 0 = none :=
  ⟨{ width_ := 2 ^ 32, height_ := 2 ^ 32, num_channels_ := 1, data_ := [] },
    by decide, by decide, by decide, by decide, by decide, by decide, by decide⟩

/-- C11 as amended. For an image built by `Image(width, height, num_channels)` whose
element count `width*height*num_channels` fits `std::size_t`, and for `col < width`,
`row < height`, `channel < num_channels`: `pixelValue` addresses the flat index
`channel*(height*width) + row*width + col`, the backing store has
`width*height*num_channels` elements, the index is below that length, and the bounds
assertion passes (the read returns the value-initialised element). -/
theorem pixelValue_inBounds_safe {T : Type} [Inhabited T] (w h c : Nat) (a : Image T)
    (ha : ofSize w h c = some a) (hfit : w * h * c < 2 ^ 64) (col row ch : Nat)
    (hc : col < w) (hr : row < h) (hch : ch < c) :
    a.idx col row ch = ch * (h * w) + row * w + col ∧
      a.data_.length = w * h * c ∧
      a.idx col row ch < a.data_.length ∧
      a.pixelValue col row ch = some default := by
  obtain ⟨hw, hh, hcc, hd, hlen⟩ := length_ofSize w h c a ha
  rw [wrapped_count_of_fit w h c (by omega) hfit] at hlen hd
  have hfit2 : a.width_ * a.height_ * a.num_channels_ < 2 ^ 64 := by
    rw [hw, hh, hcc]
    exact hfit
  obtain ⟨hi, hlt⟩ := idx_of_inBounds a col row ch hfit2 (by omega) (by omega) (by omega)
  rw [hw, hh, hcc] at hlt
  rw [hw, hh] at hi
  refine ⟨by rw [hi]; ring, hlen, by omega, ?_⟩
  have hlt2 : a.idx col row ch < a.data_.length := by omega
  simp only [pixelValue, hlt2, if_true]
  rw [hd]
  exact List.getElem?_replicate_of_lt hlt

/-- Witness of C11 as amended on `Image(2, 2, 3)` at column 1, row 1, channel 2. -/
theorem pixelValue_inBounds_safe_witness :
    ofSize 2 2 3 = some demoImage ∧ demoImage.idx 1 1 2 = 2 * (2 * 2) + 1 * 2 + 1 ∧
      demoImage.idx 1 1 2 < demoImage.data_.length ∧ demoImage.pixelValue 1 1 2 = some 0 :=
  ⟨by decide,
    (pixelValue_inBounds_safe 2 2 3 demoImage (by decide) (by decide) 1 1 2
      (by decide) (by decide) (by decide)).1,
    (pixelValue_inBounds_safe 2 2 3 demoImage (by decide) (by decide) 1 1 2
      (by decide) (by decide) (by decide)).2.2.1,
    (pixelValue_inBounds_safe 2 2 3 demoImage (by decide) (by decide) 1 1 2
      (by decide) (by decide) (by decide)).2.2.2⟩

/-- C12, the claim refuted. `Image(2^32, 2^32, 3)` is built with an empty backing
store, so the assignment `pixelValue(0, 0, 0) = 128` of the test fails the bounds
assertion instead of storing the value. -/
theorem pixelValue_set_get_counterexample :
    ∃ a : Image Nat, ofSize (2 ^ 32) (2 ^ 32) 3 = some a ∧
      0 < a.width_ ∧ 0 < a.height_ ∧ 0 < a.num_channels_ ∧
      a.pixelValueAssign 0 0 0 128 = none :=
  ⟨{ width_ := 2 ^ 32, height_ := 2 ^ 32, num_channels_ := 3, data_ := [] },
    by decide, by decide, by decide, by decide, by decide⟩

/-- C12 as amended. For an image built by `Image(width, height, num_channels)` whose
element count fits `std::size_t`, every in-bounds `(col, row, channel)` and every
value `v`: the assignment through `pixelValue(col, row, channel)` passes the
assertion, and `pixelValue(col, row, channel)` read afterwards returns `v`. -/
theorem pixelValue_set_get {T : Type} [Inhabited T] (w h c : Nat) (a : Image T)
    (ha : ofSize w h c = some a) (hfit : w * h * c < 2 ^ 64) (col row ch : Nat)
    (hc : col < w) (hr : row < h) (hch : ch < c) (v : T) :
    ∃ a2, a.pixelValueAssign col row ch v = some a2 ∧
      a2.pixelValue col row ch = some v := by
  obtain ⟨hw, hh, hcc, _, hlen⟩ := length_ofSize w h c a ha
  rw [wrapped_count_of_fit w h c (by omega) hfit] at hlen
  have hfit2 : a.width_ * a.height_ * a.num_channels_ < 2 ^ 64 := by
    rw [hw, hh, hcc]
    exact hfit
  obtain ⟨_, hlt⟩ := idx_of_inBounds a col row ch hfit2 (by omega) (by omega) (by omega)
  rw [hw, hh, hcc, ← hlen] at hlt
  obtain ⟨a2, h1, h2, _⟩ := assign_same a col row ch v hlt
  exact ⟨a2, h1, h2⟩

/-- Witness of C12 as amended: the statement of the test `PixelValue` on
`Image(2, 2, 3)`. -/
theorem pixelValue_set_get_witness :
    ofSize 2 2 3 = some demoImage ∧
      ∃ a2, demoImage.pixelValueAssign 0 0 0 128 = some a2 ∧
        a2.pixelValue 0 0 0 = some 128 :=
  ⟨by decide,
    pixelValue_set_get 2 2 3 demoImage (by decide) (by decide) 0 0 0
      (by decide) (by decide) (by decide) 128⟩

/-! ## The constructors of the Image payload -/

/-- C13, the claim refuted. `Image(data, 1, 1, 1)` with a vector of three elements has a
backing store of three elements, while `width() * height() * num_channels()` is 1. -/
theorem backing_store_size_counterexample :
    (fromData [7, 8, 9] 1 1 1).readData.length = 3 ∧
      ((fromData [7, 8, 9] 1 1 1).width * (fromData [7, 8, 9] 1 1 1).height *
        (fromData [7, 8, 9] 1 1 1).num_channels) = 1 := by
  decide

/-- C13 as amended. The default constructor and `Image(width, height, num_channels)`
produce a backing store of exactly `width() * height() * num_channels()` elements, the
product taken in `std::size_t` (it is the plain product when that fits);
`Image(data, width, height, num_channels)` keeps the vector it is given, so its backing
store has `data.size()` elements whatever the three numbers are. -/
theorem backing_store_size {T : Type} [Inhabited T] (w h c : Nat) (data : List T) :
    (empty : Image T).readData.length =
        (((empty : Image T).width * (empty : Image T).height) % 2 ^ 64 *
          (empty : Image T).num_channels) % 2 ^ 64 ∧
      (∀ a : Image T, ofSize w h c = some a →
        a.readData.length = ((a.width * a.height) % 2 ^ 64 * a.num_channels) % 2 ^ 64 ∧
        (w * h * c < 2 ^ 64 → a.readData.length = a.width * a.height * a.num_channels)) ∧
      (fromData data w h c).readData.length = data.length := by
  refine ⟨by simp [empty, readData, width, height, num_channels], ?_, rfl⟩
  intro a ha
  obtain ⟨hw, hh, hcc, _, hlen⟩ := length_ofSize w h c a ha
  obtain ⟨hpos, _⟩ := ofSize_eq_some w h c a ha
  simp only [readData, width, height, num_channels, hw, hh, hcc]
  exact ⟨hlen, fun hfit => by rw [hlen, wrapped_count_of_fit w h c hpos hfit]⟩

/-- Witness of C13 as amended on `Image(2, 2, 3)`: twelve elements. -/
theorem backing_store_size_witness :
    ofSize 2 2 3 = some demoImage ∧
      demoImage.readData.length = demoImage.width * demoImage.height * demoImage.num_channels :=
  ⟨by decide,
    ((backing_store_size 2 2 3 ([] : List Nat)).2.1 demoImage (by decide)).2 (by decide)⟩

/-- C14, the claim refuted. The default constructor `Image()` produces an image with
`num_channels() == 0`, as the test `DefaultConstructor` expects. -/
theorem num_channels_positive_counterexample :
    (empty : Image Nat).num_channels = 0 ∧ ¬ 0 < (empty : Image Nat).num_channels := by
  decide

/-- C14 as amended. An image built by `Image(width, height, num_channels)` with its
assertions passing has `num_channels() > 0`; the default constructor `Image()` produces
`num_channels() == 0`; `Image(data, width, height, num_channels)` reports the channel
count it was given, so it has `num_channels() > 0` exactly when the caller keeps the
documented precondition `num_channels > 0`. -/
theorem num_channels_of_constructors {T : Type} [Inhabited T] (w h c : Nat) (data : List T) :
    (∀ a : Image T, ofSize w h c = some a → 0 < a.num_channels) ∧
      (empty : Image T).num_channels = 0 ∧
      (0 < (fromData data w h c).num_channels ↔ 0 < c) := by
  refine ⟨?_, rfl, Iff.rfl⟩
  intro a ha
  obtain ⟨_, _, hcc, _⟩ := length_ofSize w h c a ha
  obtain ⟨hpos, _⟩ := ofSize_eq_some w h c a ha
  simp only [num_channels, hcc]
  exact hpos

/-- Witness of C14 as amended on `Image(2, 2, 3)`. -/
theorem num_channels_of_constructors_witness :
    ofSize 2 2 3 = some demoImage ∧ 0 < demoImage.num_channels :=
  ⟨by decide, (num_channels_of_constructors 2 2 3 ([] : List Nat)).1 demoImage (by decide)⟩

/-- C15. The image `Image(data, width, height, num_channels)` reports the width, the
height and the channel count it was given, `size()` is `width * height` in
`std::size_t` with the channels not counted (the plain product when that fits), and
`readData()` is the vector `data` element for element. -/
theorem fromData_accessors {T : Type} (data : List T) (w h c : Nat) :
    (fromData data w h c).width = w ∧ (fromData data w h c).height = h ∧
      (fromData data w h c).num_channels = c ∧
      (fromData data w h c).size = (w * h) % 2 ^ 64 ∧
      (w * h < 2 ^ 64 → (fromData data w h c).size = w * h) ∧
      (fromData data w h c).readData = data ∧
      (∀ i : Nat, (fromData data w h c).readData[i]? = data[i]?) := by
  refine ⟨rfl, rfl, rfl, rfl, ?_, rfl, fun _ => rfl⟩
  intro hfit
  simp only [size, fromData]
  exact Nat.mod_eq_of_lt hfit

/-- Witness of C15: the image of the test `ConstructorWithCustomData` in small, 2 by 2
with 3 channels and twelve elements 255: `size()` is 4. -/
theorem fromData_accessors_witness :
    (fromData (List.replicate 12 (255 : Nat)) 2 2 3).size = 2 * 2 ∧
      (fromData (List.replicate 12 (255 : Nat)) 2 2 3).readData[0]? = some 255 :=
  ⟨(fromData_accessors (List.replicate 12 (255 : Nat)) 2 2 3).2.2.2.2.1 (by decide),
    (fromData_accessors (List.replicate 12 (255 : Nat)) 2 2 3).2.2.2.2.2.2 0⟩

/-- C16 on the code. `Image(0, 5, 1)` and `Image(5, 0, 1)` keep the documented
preconditions `width >= 0`, `height >= 0`, `num_channels > 0`, and the constructor fails
its assertion `width > 0U`, respectively `height > 0U`. -/
theorem ofSize_rejects_zero_extent :
    (ofSize 0 5 1 : Option (Image Nat)) = none ∧ (ofSize 5 0 1 : Option (Image Nat)) = none ∧
      (ofSize 0 0 1 : Option (Image Nat)) = none := by
  decide

/-! ## The bounds assertion and aliasing -/

/-- C19, the claim refuted. The 2 by 2 image with one channel over four elements has a
backing store of `width*height*num_channels` elements; `pixelValue(3, 0, 0)` computes
the flat index 3, passes the assertion `idx < data_.size()` and returns the last
element, although the column 3 is not below the width 2. -/
theorem pixelValue_assert_exact_counterexample :
    (fromData [1, 2, 3, 4] 2 2 1).data_.length =
        (fromData [1, 2, 3, 4] 2 2 1).width_ * (fromData [1, 2, 3, 4] 2 2 1).height_ *
          (fromData [1, 2, 3, 4] 2 2 1).num_channels_ ∧
      (fromData [1, 2, 3, 4] 2 2 1).idx 3 0 0 < (fromData [1, 2, 3, 4] 2 2 1).data_.length ∧
      (fromData [1, 2, 3, 4] 2 2 1).pixelValue 3 0 0 = some 4 ∧
      ¬ 3 < (fromData [1, 2, 3, 4] 2 2 1).width_ := by
  decide

/-- C19 as amended. The assertion of `pixelValue` bounds the flat index and not the
three arguments. For an image whose backing store has `width*height*num_channels`
elements, the count fitting `std::size_t`: `col < width`, `row < height` and
`channel < num_channels` make the assertion `idx < data_.size()` pass; and for
arguments whose flat index `channel*(height*width) + row*width + col` does not wrap,
the assertion passes exactly when that flat index is below
`width*height*num_channels`. -/
theorem pixelValue_assert_flat_index {T : Type} (a : Image T)
    (hlen : a.data_.length = a.width_ * a.height_ * a.num_channels_)
    (hfit : a.width_ * a.height_ * a.num_channels_ < 2 ^ 64) (col row ch : Nat) :
    (col < a.width_ ∧ row < a.height_ ∧ ch < a.num_channels_ →
        a.idx col row ch < a.data_.length) ∧
      (ch * (a.height_ * a.width_) + (row * a.width_ + col) < 2 ^ 64 →
        (a.idx col row ch < a.data_.length ↔
          ch * (a.height_ * a.width_) + (row * a.width_ + col) <
            a.width_ * a.height_ * a.num_channels_)) := by
  constructor
  · rintro ⟨hc, hr, hch⟩
    rw [hlen]
    exact (idx_of_inBounds a col row ch hfit hc hr hch).2
  · intro hnw
    rw [hlen]
    rcases Nat.eq_zero_or_pos a.num_channels_ with h0 | hpos
    · rw [h0, Nat.mul_zero]
      exact ⟨fun hlt => absurd hlt (Nat.not_lt_zero _), fun hlt => absurd hlt (Nat.not_lt_zero _)⟩
    · have h1 : a.width_ * a.height_ ≤ a.width_ * a.height_ * a.num_channels_ :=
        Nat.le_mul_of_pos_right _ hpos
      have h2 : a.height_ * a.width_ = a.width_ * a.height_ := Nat.mul_comm _ _
      rw [idx_of_noWrap a col row ch hnw (by omega)]

/-- Witness of C19 as amended on `Image(2, 2, 3)`: the in-bounds arguments (1, 1, 2)
pass the assertion. -/
theorem pixelValue_assert_flat_index_witness :
    demoImage.data_.length = demoImage.width_ * demoImage.height_ * demoImage.num_channels_ ∧
      demoImage.idx 1 1 2 < demoImage.data_.length :=
  ⟨by decide,
    (pixelValue_assert_flat_index demoImage (by decide) (by decide) 1 1 2).1
      ⟨by decide, by decide, by decide⟩⟩

/-- C20, the claim refuted. `Image(2^63 + 1, 2, 1)` is built with two elements, since
`width*height` wraps to 2. The triples `(0, 0, 0)` and `(2^63 - 1, 1, 0)` are distinct
and in bounds, both have the flat index 0, and the assignment of 9 at the first changes
the value read at the second from 0 to 9. -/
theorem pixelValue_alias_counterexample :
    ∃ a a2 : Image Nat, ofSize (2 ^ 63 + 1) 2 1 = some a ∧
      (0 < a.width_ ∧ 0 < a.height_ ∧ 0 < a.num_channels_) ∧
      (2 ^ 63 - 1 < a.width_ ∧ 1 < a.height_ ∧ 0 < a.num_channels_) ∧
      a.idx 0 0 0 = a.idx (2 ^ 63 - 1) 1 0 ∧
      a.pixelValue (2 ^ 63 - 1) 1 0 = some 0 ∧
      a.pixelValueAssign 0 0 0 9 = some a2 ∧
      a2.pixelValue (2 ^ 63 - 1) 1 0 = some 9 :=
  ⟨{ width_ := 2 ^ 63 + 1, height_ := 2, num_channels_ := 1, data_ := [0, 0] },
    { width_ := 2 ^ 63 + 1, height_ := 2, num_channels_ := 1, data_ := [9, 0] },
    by decide, by decide, by decide, by decide, by decide, by decide, by decide⟩

/-- C20 as amended. For an image built by `Image(width, height, num_channels)` whose
element count fits `std::size_t` and two distinct in-bounds triples, the flat indices
are distinct, and the assignment through `pixelValue` at the first triple leaves the
value read at the second triple and the width, height and channel count as they were. -/
theorem pixelValue_no_alias {T : Type} [Inhabited T] (w h c : Nat) (a : Image T)
    (ha : ofSize w h c = some a) (hfit : w * h * c < 2 ^ 64)
    (col row ch col2 row2 ch2 : Nat)
    (hc : col < w) (hr : row < h) (hch : ch < c)
    (hc2 : col2 < w) (hr2 : row2 < h) (hch2 : ch2 < c)
    (hne : (col, row, ch) ≠ (col2, row2, ch2)) (v : T) :
    a.idx col row ch ≠ a.idx col2 row2 ch2 ∧
      ∃ a2, a.pixelValueAssign col row ch v = some a2 ∧
        a2.pixelValue col2 row2 ch2 = a.pixelValue col2 row2 ch2 ∧
        a2.width = a.width ∧ a2.height = a.height ∧ a2.num_channels = a.num_channels := by
  obtain ⟨hw, hh, hcc, _, hlen⟩ := length_ofSize w h c a ha
  rw [wrapped_count_of_fit w h c (by omega) hfit] at hlen
  have hfit2 : a.width_ * a.height_ * a.num_channels_ < 2 ^ 64 := by
    rw [hw, hh, hcc]
    exact hfit
  have hidx : a.idx col row ch ≠ a.idx col2 row2 ch2 := by
    intro he
    obtain ⟨e1, e2, e3⟩ := idx_injective a col row ch col2 row2 ch2 hfit2
      (by omega) (by omega) (by omega) (by omega) (by omega) (by omega) he
    exact hne (by rw [e1, e2, e3])
  obtain ⟨_, hlt⟩ := idx_of_inBounds a col row ch hfit2 (by omega) (by omega) (by omega)
  rw [hw, hh, hcc, ← hlen] at hlt
  obtain ⟨a2, h1, _, h3, h4, h5⟩ := assign_same a col row ch v hlt
  exact ⟨hidx, a2, h1, assign_other a a2 col row ch col2 row2 ch2 v h1 hidx, h3, h4, h5⟩

/-- Witness of C20 as amended: the first two assignments of the demo program
`imageClassOutput` in small, at `(1, 1, 0)` and `(1, 1, 1)` of `Image(2, 2, 3)`. -/
theorem pixelValue_no_alias_witness :
    ofSize 2 2 3 = some demoImage ∧ demoImage.idx 1 1 0 ≠ demoImage.idx 1 1 1 ∧
      ∃ a2, demoImage.pixelValueAssign 1 1 0 255 = some a2 ∧
        a2.pixelValue 1 1 1 = demoImage.pixelValue 1 1 1 ∧
        a2.width = demoImage.width ∧ a2.height = demoImage.height ∧
        a2.num_channels = demoImage.num_channels :=
  ⟨by decide,
    (pixelValue_no_alias 2 2 3 demoImage (by decide) (by decide) 1 1 0 1 1 1
      (by decide) (by decide) (by decide) (by decide) (by decide) (by decide)
      (by decide) 255).1,
    (pixelValue_no_alias 2 2 3 demoImage (by decide) (by decide) 1 1 0 1 1 1
      (by decide) (by decide) (by decide) (by decide) (by decide) (by decide)
      (by decide) 255).2⟩

end Image

/-! ## Teardown of the asynchronous variant and consumption by `read` -/

namespace AsyncSharedMemory

/-- C17. Teardown ordering in the asynchronous variant. A call `write(v)` on a handle
whose future is not valid returns with the write outstanding and the host untouched.
When a handle is destroyed while its write of `v` is outstanding, the name still
denoting its segment and the control block alive, the destructor passes through
exactly two hosts: in the first, reached when `write_future_.get()` returns, the write
has stored `v` and set the flag and the name still denotes the segment; only the
second is without the name. So every host of the destructor in which the name is
removed has the write completed. In the shipped class the write is not asynchronous:
when `write(v)` returns it has stored `v` and set the flag. -/
theorem destruct_waits_for_write {T : Type} (h : AsyncSharedMemory T) (k : Host T) (v : T)
    (sd : SharedData T) (hf : h.write_future_ = WriteFuture.outstanding v)
    (hname : k.names h.name_ = some h.shared_data)
    (hb : k.block h.shared_data = some sd) :
    (∀ (h0 : AsyncSharedMemory T) (newFirst : Bool),
        h0.write_future_ = WriteFuture.invalid →
        write h0 v newFirst k =
          some ({ h0 with write_future_ := WriteFuture.outstanding v }, k)) ∧
      (∃ k1, destructStates h k = some [k1, remove h.name_ k1] ∧
        k1.names h.name_ = some h.shared_data ∧
        k1.block h.shared_data = some { data := v, new_data := true } ∧
        (remove h.name_ k1).names h.name_ = none ∧
        (remove h.name_ k1).block h.shared_data = some { data := v, new_data := true } ∧
        destruct h k = some (remove h.name_ k1)) ∧
      (∀ states, destructStates h k = some states → ∀ s ∈ states,
        s.names h.name_ = none →
        s.block h.shared_data = some { data := v, new_data := true }) ∧
      (∀ hs : SharedMemory, hs.shared_data_ = some h.shared_data →
        ∃ k1, hs.write v k = some (WriteStatus.Success, k1) ∧
          k1.block h.shared_data = some { data := v, new_data := true }) := by
  have hw : writeTask h.shared_data v k =
      some (k.store h.shared_data (some { data := v, new_data := true })) := by
    simp [writeTask, hb]
  have hst : destructStates h k =
      some [k.store h.shared_data (some { data := v, new_data := true }),
        remove h.name_ (k.store h.shared_data (some { data := v, new_data := true }))] := by
    simp [destructStates, get, runTask, hf, hw]
  have hrm : (remove h.name_
      (k.store h.shared_data (some { data := v, new_data := true }))).block h.shared_data =
      some { data := v, new_data := true } := Host.block_store_same _ _ _
  refine ⟨?_, ⟨_, hst, hname, Host.block_store_same _ _ _,
    SharedMemory.names_remove_same _ _, hrm, ?_⟩, ?_, ?_⟩
  · intro h0 newFirst h0f
    simp [write, h0f]
  · simp [destruct, hst]
  · intro states hs s hmem hnone
    rw [hst] at hs
    injection hs with hs
    subst hs
    rcases List.mem_cons.mp hmem with h1 | h2
    · subst h1
      rw [Host.names_store, hname] at hnone
      exact absurd hnone (by simp)
    · rw [List.mem_singleton] at h2
      subst h2
      exact hrm
  · intro hs hp
    exact ⟨_, SharedMemory.write_of_block hs k v _ sd hp hb, Host.block_store_same _ _ _⟩

/-- Witness of C17: the asynchronous variant is constructed on "SharedMemoryTest", the
call `write(7)` leaves the write outstanding, and the destructor passes through a host
where 7 is stored and the name is still there before the host without the name. -/
theorem destruct_waits_for_write_witness :
    construct demoLayout "SharedMemoryTest" (Host.empty : Host Nat) = some demoAsyncStart ∧
      write demoAsyncStart.1 7 false demoAsyncStart.2 = some demoAsync ∧
      demoAsync.1.write_future_ = WriteFuture.outstanding 7 ∧
      demoAsync.2.names demoAsync.1.name_ = some demoAsync.1.shared_data ∧
      demoAsync.2.block demoAsync.1.shared_data = some SharedData.init ∧
      ∃ k1, destructStates demoAsync.1 demoAsync.2 =
          some [k1, remove demoAsync.1.name_ k1] ∧
        k1.names demoAsync.1.name_ = some demoAsync.1.shared_data ∧
        k1.block demoAsync.1.shared_data = some { data := 7, new_data := true } ∧
        (remove demoAsync.1.name_ k1).names demoAsync.1.name_ = none ∧
        (remove demoAsync.1.name_ k1).block demoAsync.1.shared_data =
          some { data := 7, new_data := true } ∧
        destruct demoAsync.1 demoAsync.2 = some (remove demoAsync.1.name_ k1) :=
  ⟨rfl, rfl, rfl, rfl, rfl,
    (destruct_waits_for_write demoAsync.1 demoAsync.2 7 SharedData.init rfl rfl rfl).2.1⟩

end AsyncSharedMemory

namespace SharedMemory

/-- C18. Read consumes the pending value: on a handle whose control block is alive with
the flag set and the slot `s`, `read()` returns `s`, clears the flag and leaves the
slot as it was; a second `read()` with no write in between, through this or any other
handle on the block, waits, and keeps waiting while the other parties leave the flag
unset. -/
theorem read_consumes_pending {T : Type} (h : SharedMemory) (k : Host T) (p : Nat) (s : T)
    (hp : h.shared_data_ = some p)
    (hb : k.block p = some { data := s, new_data := true }) :
    ∃ k1, h.read k = some (ReadOutcome.returned s, k1) ∧
      k1.block p = some { data := s, new_data := false } ∧
      ∀ h2 : SharedMemory, h2.shared_data_ = some p →
        h2.read k1 = some (ReadOutcome.waiting, k1) ∧
        ∀ qs, (∀ e ∈ qs, Quiet p e) →
          h2.readDuring qs k1 = some (ReadOutcome.waiting, runMoves qs k1) := by
  have hr : h.read k =
      some (ReadOutcome.returned s, k.store p (some { data := s, new_data := false })) := by
    simp only [read, readDuring, hp]
    exact readLoop_of_ready p [] k { data := s, new_data := true } hb rfl
  refine ⟨_, hr, Host.block_store_same _ _ _, ?_⟩
  intro h2 hp2
  have hb1 : (k.store p (some { data := s, new_data := false })).block p =
      some { data := s, new_data := false } := Host.block_store_same _ _ _
  refine ⟨read_of_unset h2 _ p _ hp2 hb1 rfl, ?_⟩
  intro qs hq
  obtain ⟨sd2, hb2, hf2⟩ := quiet_runMoves p qs hq _ _ hb1 rfl
  have happ := readLoop_append_quiet p qs [] hq _ _ hb1 rfl
  rw [List.append_nil] at happ
  simp only [readDuring, hp2]
  rw [happ]
  exact readLoop_nil_of_unset p _ sd2 hb2 hf2

/-- Witness of C18 on the handle of the test helper with 7 pending: the first read
returns 7, the second waits. -/
theorem read_consumes_pending_witness :
    demo.1.shared_data_ = some 0 ∧
      demoPending.block 0 = some { data := 7, new_data := true } ∧
      ∃ k1, demo.1.read demoPending = some (ReadOutcome.returned 7, k1) ∧
        k1.block 0 = some { data := 7, new_data := false } ∧
        demo.1.read k1 = some (ReadOutcome.waiting, k1) := by
  obtain ⟨k1, h1, h2, h3⟩ := read_consumes_pending demo.1 demoPending 0 7 rfl rfl
  exact ⟨rfl, rfl, k1, h1, h2, (h3 demo.1 rfl).1⟩

/-! ## A failed write and the size of the segment -/

/-- C21. A failed write is atomic: on a handle whose `shared_data_` is null, `write(v)`
returns `Failure` and the host is exactly as before, flag and slot of every segment
included; a value pending in a segment is still what a handle attached to that
segment reads next. -/
theorem failed_write_leaves_segment {T : Type} (h : SharedMemory) (k : Host T) (v : T)
    (hnull : h.shared_data_ = none) :
    h.write v k = some (WriteStatus.Failure, k) ∧
      ∀ (h2 : SharedMemory) (p : Nat) (s : T), h2.shared_data_ = some p →
        k.block p = some { data := s, new_data := true } →
        ∃ k1 k2, h.write v k = some (WriteStatus.Failure, k1) ∧
          k1.block p = some { data := s, new_data := true } ∧
          h2.read k1 = some (ReadOutcome.returned s, k2) := by
  have hw : h.write v k = some (WriteStatus.Failure, k) := by
    simp [write, hnull]
  refine ⟨hw, ?_⟩
  intro h2 p s hp hb
  refine ⟨k, k.store p (some { data := s, new_data := false }), hw, hb, ?_⟩
  simp only [read, readDuring, hp]
  exact readLoop_of_ready p [] k { data := s, new_data := true } hb rfl

/-- Witness of C21: the handle of the test helper after `setSharedDataNullptr()` fails
to write 9 on the host where 7 is pending, and the attached handle still reads 7. -/
theorem failed_write_leaves_segment_witness :
    demo.1.setSharedDataNullptr.shared_data_ = none ∧
      demo.1.setSharedDataNullptr.write 9 demoPending =
        some (WriteStatus.Failure, demoPending) ∧
      ∃ k1 k2, demo.1.setSharedDataNullptr.write 9 demoPending =
          some (WriteStatus.Failure, k1) ∧
        k1.block 0 = some { data := 7, new_data := true } ∧
        demo.1.read k1 = some (ReadOutcome.returned 7, k2) :=
  ⟨rfl, (failed_write_leaves_segment demo.1.setSharedDataNullptr demoPending 9 rfl).1,
    (failed_write_leaves_segment demo.1.setSharedDataNullptr demoPending 9 rfl).2
      demo.1 0 7 rfl rfl⟩

/-- C22, the claim refuted. For `SharedMemory<int>`, with `sizeof(SharedData) = 96` and
`sizeof(int) = 4`, the capacity hint `2^62 - 1` makes
`sizeof(SharedData) + data_size * sizeof(T)` wrap to 92 in 64-bit arithmetic: the
constructor completes and leaves a segment of 92 bytes, fewer than the control block
takes. -/
theorem segment_size_counterexample :
    ∃ r, construct demoLayout "SharedMemoryTest" (2 ^ 62 - 1) (Host.empty : Host Nat) =
          some r ∧
      2 ^ 62 - 1 < 2 ^ 64 ∧ segmentSize demoLayout (2 ^ 62 - 1) = 92 ∧
      segmentSize demoLayout (2 ^ 62 - 1) < demoLayout.sizeofSharedData ∧
      (r.2.mem r.1.region_).size = 92 :=
  ⟨_, rfl, by decide, by decide, by decide, rfl⟩

/-- C22 as amended. When `sizeof(SharedData) + data_size * sizeof(T)` stays below
`2^64`, the size the constructor requests is that sum and is at least
`sizeof(SharedData)`. The constructor completes only when the requested size is below
`2^63`, and a construction that completes leaves a segment of the requested size, so
for such hints the control block fits; for a sum from `2^63` up to `2^64 - 1` the
constructor throws, and for a sum below `2^63` that the host grants it completes.
Beyond `2^64` the sum wraps: for every layout with
`1 <= sizeof(T) <= sizeof(SharedData) < 2^63` the hint `(2^64 - 1) / sizeof(T)` requests
fewer bytes than the control block takes, and where the host grants that size the
constructor completes with a segment smaller than the control block. -/
theorem segment_size_of_fit {T : Type} [Inhabited T] (L : Layout) (name : String)
    (data_size : Nat) (k : Host T) :
    (L.sizeofSharedData + data_size * L.sizeofT < 2 ^ 64 →
        segmentSize L data_size = L.sizeofSharedData + data_size * L.sizeofT ∧
        L.sizeofSharedData ≤ segmentSize L data_size) ∧
      (∀ r, construct L name data_size k = some r →
        segmentSize L data_size < 2 ^ 63 ∧
        (r.2.mem r.1.region_).size = segmentSize L data_size ∧
        (L.sizeofSharedData + data_size * L.sizeofT < 2 ^ 64 →
          L.sizeofSharedData ≤ (r.2.mem r.1.region_).size)) ∧
      (2 ^ 63 ≤ L.sizeofSharedData + data_size * L.sizeofT →
        L.sizeofSharedData + data_size * L.sizeofT < 2 ^ 64 →
        construct L name data_size k = none) ∧
      (L.sizeofSharedData + data_size * L.sizeofT < 2 ^ 63 →
        k.grants (L.sizeofSharedData + data_size * L.sizeofT) = true →
        ∃ r, construct L name data_size k = some r) ∧
      (1 ≤ L.sizeofT → L.sizeofT ≤ L.sizeofSharedData → L.sizeofSharedData < 2 ^ 63 →
        (2 ^ 64 - 1) / L.sizeofT < 2 ^ 64 ∧
        segmentSize L ((2 ^ 64 - 1) / L.sizeofT) < L.sizeofSharedData ∧
        (k.grants (segmentSize L ((2 ^ 64 - 1) / L.sizeofT)) = true →
          ∃ r, construct L name ((2 ^ 64 - 1) / L.sizeofT) k = some r ∧
            (r.2.mem r.1.region_).size < L.sizeofSharedData)) := by
  have hsum : L.sizeofSharedData + data_size * L.sizeofT < 2 ^ 64 →
      segmentSize L data_size = L.sizeofSharedData + data_size * L.sizeofT := by
    intro hfit
    have h1 : data_size * L.sizeofT < 2 ^ 64 := by omega
    unfold segmentSize
    rw [Nat.mod_eq_of_lt h1, Nat.mod_eq_of_lt hfit]
  have hsize : ∀ (d : Nat) (r : SharedMemory × Host T), construct L name d k = some r →
      segmentSize L d < 2 ^ 63 ∧ (r.2.mem r.1.region_).size = segmentSize L d := by
    intro d r hc
    obtain ⟨hlt, _, hh, _, _, _, hs⟩ := construct_of_some L name d k r hc
    refine ⟨hlt, ?_⟩
    rw [hh]
    exact hs
  refine ⟨?_, ?_, ?_, ?_, ?_⟩
  · intro hfit
    have hs := hsum hfit
    exact ⟨hs, by omega⟩
  · intro r hc
    obtain ⟨hlt, hs⟩ := hsize data_size r hc
    refine ⟨hlt, hs, ?_⟩
    intro hfit
    have hs2 := hsum hfit
    omega
  · intro hge hfit
    have hs := hsum hfit
    exact construct_of_refused L name data_size k (by omega)
  · intro hlt hgr
    have hs := hsum (by omega)
    exact construct_of_granted L name data_size k (by omega) (by rw [hs]; exact hgr)
  · intro hT hle hlt
    have hd : (2 ^ 64 - 1) / L.sizeofT ≤ 2 ^ 64 - 1 := Nat.div_le_self _ _
    have hdm : L.sizeofT * ((2 ^ 64 - 1) / L.sizeofT) + (2 ^ 64 - 1) % L.sizeofT =
        2 ^ 64 - 1 := Nat.div_add_mod _ _
    have hr : (2 ^ 64 - 1) % L.sizeofT < L.sizeofT := Nat.mod_lt _ hT
    have hx : (2 ^ 64 - 1) / L.sizeofT * L.sizeofT =
        L.sizeofT * ((2 ^ 64 - 1) / L.sizeofT) := Nat.mul_comm _ _
    have hlt2 : (2 ^ 64 - 1) / L.sizeofT * L.sizeofT < 2 ^ 64 := by omega
    have hwrap : segmentSize L ((2 ^ 64 - 1) / L.sizeofT) < L.sizeofSharedData := by
      unfold segmentSize
      rw [Nat.mod_eq_of_lt hlt2]
      omega
    refine ⟨by omega, hwrap, ?_⟩
    intro hgr
    obtain ⟨r, hc⟩ := construct_of_granted L name ((2 ^ 64 - 1) / L.sizeofT) k
      (by omega) hgr
    obtain ⟨_, hs⟩ := hsize _ r hc
    exact ⟨r, hc, by omega⟩

/-- Witness of C22 as amended: the constructor call of the test helper for
`SharedMemory<int>`, with the hint 4, requests 112 bytes and completes with a segment
of at least the 96 bytes of the control block. -/
theorem segment_size_of_fit_witness :
    demoLayout.sizeofSharedData + 4 * demoLayout.sizeofT < 2 ^ 64 ∧
      segmentSize demoLayout 4 = demoLayout.sizeofSharedData + 4 * demoLayout.sizeofT ∧
      construct demoLayout "SharedMemoryTest" 4 (Host.empty : Host Nat) = some demo ∧
      demoLayout.sizeofSharedData ≤ (demo.2.mem demo.1.region_).size ∧
      segmentSize demoLayout ((2 ^ 64 - 1) / demoLayout.sizeofT) <
        demoLayout.sizeofSharedData :=
  ⟨by decide,
    ((segment_size_of_fit demoLayout "SharedMemoryTest" 4 (Host.empty : Host Nat)).1
      (by decide)).1,
    rfl,
    ((segment_size_of_fit demoLayout "SharedMemoryTest" 4 (Host.empty : Host Nat)).2.1
      demo rfl).2.2 (by decide),
    ((segment_size_of_fit demoLayout "SharedMemoryTest" 4 (Host.empty : Host Nat)).2.2.2.2
      (by decide) (by decide) (by decide)).2.1⟩

end SharedMemory

end InterP
